import Mathlib

/-!
Verification of the Pracuj.pl job-monitor pipeline
(`src/scraper/scrape_pracuj.py`) against its specification.

Shallow embedding notes:
* Text is modelled as Lean `String` / `List Char`.  The modelled alphabet is
  ASCII plus the nine Polish diacritic letters (both cases); `str.lower()`,
  NFD accent stripping and the regular expressions of the source are
  translated character by character for that alphabet.
* `pandas`/`numpy` behaviour is modelled where the program observes it:
  `pd.to_datetime` is modelled for the ISO formats the program produces and
  consumes (`YYYY-MM-DD`, `YYYY-MM-DD HH:MM:SS` with optional `+HHMM`/`-HHMM`
  offset); everything else parses to `NaT`.  `NaT` and `None` results are
  identified (`Option.none`): the program only ever tests them for truthiness.
  Timezone awareness is abstracted away (offsets are parsed and dropped).
* DataFrame cells are three-valued (`Cell`): a missing column yields `None`
  from `Series.get` (`Cell.none`, falsy), a missing value inside an existing
  column is `NaN` (`Cell.nan`, truthy in Python!), otherwise a string.
* `DataFrame.sort_values(by=col, ascending=False, na_position="last")` is
  modelled after pandas `nargsort`: for a descending sort the non-missing
  values and their indices are reversed, stably argsorted ascending, and the
  resulting indexer is reversed again (the double reversal that makes
  descending sorts tie-stable, pandas GH#6399); the missing rows are appended
  in original order.  (numpy's introsort is insertion sort - hence stable -
  on the small runs relevant here.)
* Python exceptions never escape the modelled fragments: every
  `try/except`-guarded operation is modelled as an `Option`-returning total
  function.
-/

/-! ## Characters: lowercasing, accent stripping, classes -/

/-- Python `str.lower()` restricted to the modelled alphabet:
ASCII `A`-`Z` and the nine Polish uppercase diacritics. -/
def pyLowerChar (c : Char) : Char :=
  if 'A' ≤ c ∧ c ≤ 'Z' then Char.ofNat (c.toNat + 32)
  else if c = 'Ą' then 'ą' else if c = 'Ć' then 'ć' else if c = 'Ę' then 'ę'
  else if c = 'Ł' then 'ł' else if c = 'Ń' then 'ń' else if c = 'Ó' then 'ó'
  else if c = 'Ś' then 'ś' else if c = 'Ź' then 'ź' else if c = 'Ż' then 'ż'
  else c

def pyLower (l : List Char) : List Char := l.map pyLowerChar

/-- `_strip_accents` (NFD, drop combining marks), per character on the
modelled alphabet.  `ł` does not decompose under NFD and is kept. -/
def stripAccentChar (c : Char) : Char :=
  if c = 'ą' then 'a' else if c = 'ć' then 'c' else if c = 'ę' then 'e'
  else if c = 'ń' then 'n' else if c = 'ó' then 'o' else if c = 'ś' then 's'
  else if c = 'ź' then 'z' else if c = 'ż' then 'z'
  else c

def stripAccents (l : List Char) : List Char := l.map stripAccentChar

/-- Python `\s` (ASCII part: space, TAB, LF, VT, FF, CR). -/
def isWs (c : Char) : Bool :=
  c = ' ' ∨ c = '\t' ∨ c = '\n' ∨ c.toNat = 11 ∨ c.toNat = 12 ∨ c = '\r'

def isDig (c : Char) : Bool := '0' ≤ c ∧ c ≤ '9'

def isAsciiLower (c : Char) : Bool := 'a' ≤ c ∧ c ≤ 'z'

/-- The character class `[a-ząćęłńóśźż]` of the full-date regex. -/
def isPlLetter (c : Char) : Bool :=
  isAsciiLower c ∨ c ∈ ['ą', 'ć', 'ę', 'ł', 'ń', 'ó', 'ś', 'ź', 'ż']

/-- Python regex `\w` (word character) on the modelled alphabet:
ASCII alphanumerics, underscore, and (Unicode-aware `\b`) the Polish letters. -/
def isWordChar (c : Char) : Bool :=
  isDig c ∨ isAsciiLower c ∨ ('A' ≤ c ∧ c ≤ 'Z') ∨ c = '_' ∨
    c ∈ ['ą', 'ć', 'ę', 'ł', 'ń', 'ó', 'ś', 'ź', 'ż']

/-- Python `str.strip()` (both ends, whitespace). -/
def pyStrip (l : List Char) : List Char :=
  ((l.dropWhile isWs).reverse.dropWhile isWs).reverse

def digitsToNat (l : List Char) : Nat :=
  l.foldl (fun a c => a * 10 + (c.toNat - 48)) 0

/-! ## Dates and the `pd.to_datetime` model -/

/-- A naive `datetime` value (timezone offsets are parsed and dropped). -/
structure PDateTime where
  year : Nat
  month : Nat
  day : Nat
  hour : Nat
  minute : Nat
  second : Nat
deriving DecidableEq

def isLeap (y : Nat) : Bool := y % 4 = 0 && (y % 100 ≠ 0 || y % 400 = 0)

def daysInMonth (y m : Nat) : Nat :=
  if m = 2 then (if isLeap y then 29 else 28)
  else if m = 4 ∨ m = 6 ∨ m = 9 ∨ m = 11 then 30
  else 31

/-- The validity predicate of Python's `datetime` constructor
(`MINYEAR = 1`, `MAXYEAR = 9999`, real calendar days), plus time ranges. -/
def ValidDT (d : PDateTime) : Prop :=
  1 ≤ d.year ∧ d.year ≤ 9999 ∧ 1 ≤ d.month ∧ d.month ≤ 12 ∧
    1 ≤ d.day ∧ d.day ≤ daysInMonth d.year d.month ∧
    d.hour < 24 ∧ d.minute < 60 ∧ d.second < 60

instance (d : PDateTime) : Decidable (ValidDT d) := by
  unfold ValidDT; infer_instance

/-- `datetime(y, m, d, hh, mi, ss)` guarded by `try/except`: a valid datetime
or `none` (the exception path). -/
def mkValidDateTime (y m d hh mi ss : Nat) : Option PDateTime :=
  if ValidDT ⟨y, m, d, hh, mi, ss⟩ then some ⟨y, m, d, hh, mi, ss⟩ else none

/-- `datetime(y, m, d)` guarded by `try/except`. -/
def mkValidDate (y m d : Nat) : Option PDateTime := mkValidDateTime y m d 0 0 0

/-- Mixed-radix encoding; on valid datetimes it orders exactly like
`datetime` comparison (lexicographic on the fields). -/
def PDateTime.toNat (d : PDateTime) : Nat :=
  ((((d.year * 13 + d.month) * 32 + d.day) * 24 + d.hour) * 60 + d.minute) * 60
    + d.second

/-- Exactly `n` digits: returns their value and the rest of the input. -/
def parseDigits (n : Nat) (l : List Char) : Option (Nat × List Char) :=
  let ds := l.take n
  if ds.length = n ∧ ds.all isDig then some (digitsToNat ds, l.drop n) else none

def expectChar (c : Char) (l : List Char) : Option (List Char) :=
  match l with
  | [] => none
  | x :: rest => if x = c then some rest else none

/-- Syntactic `YYYY-MM-DD` prefix. -/
def parseIsoDate (l : List Char) : Option (Nat × Nat × Nat × List Char) :=
  match parseDigits 4 l with
  | none => none
  | some (y, r1) =>
    match expectChar '-' r1 with
    | none => none
    | some r2 =>
      match parseDigits 2 r2 with
      | none => none
      | some (m, r3) =>
        match expectChar '-' r3 with
        | none => none
        | some r4 =>
          match parseDigits 2 r4 with
          | none => none
          | some (d, r5) => some (y, m, d, r5)

/-- Syntactic ` HH:MM:SS` (or `THH:MM:SS`) with optional `+HHMM`/`-HHMM`
offset, or nothing at all. -/
def parseIsoTime (l : List Char) : Option (Nat × Nat × Nat) :=
  match l with
  | [] => some (0, 0, 0)
  | sep :: r0 =>
    if sep = ' ' ∨ sep = 'T' then
      match parseDigits 2 r0 with
      | none => none
      | some (hh, r1) =>
        match expectChar ':' r1 with
        | none => none
        | some r2 =>
          match parseDigits 2 r2 with
          | none => none
          | some (mi, r3) =>
            match expectChar ':' r3 with
            | none => none
            | some r4 =>
              match parseDigits 2 r4 with
              | none => none
              | some (ss, r5) =>
                match r5 with
                | [] => some (hh, mi, ss)
                | sgn :: r6 =>
                  if sgn = '+' ∨ sgn = '-' then
                    match parseDigits 4 r6 with
                    | some (_, []) => some (hh, mi, ss)
                    | _ => none
                  else none
    else none

/-- Model of `pd.to_datetime(s)` on a string, restricted to the ISO formats
this program produces and consumes; every other string yields `NaT`,
identified with `none`.  (`dayfirst=True` only affects ambiguous
day/month orders, which do not occur in the modelled formats.) -/
def toDatetime (s : String) : Option PDateTime :=
  let l := pyStrip s.toList
  match parseIsoDate l with
  | none => none
  | some (y, m, d, rest) =>
    match parseIsoTime rest with
    | none => none
    | some (hh, mi, ss) => mkValidDateTime y m d hh mi ss

/-! ## DataFrame cells -/

/-- A value read from a pandas row with `Series.get`:
`Cell.none` - the column does not exist (`get` returns `None`);
`Cell.nan` - the column exists but the value is missing (`NaN` - which is
truthy in Python!); `Cell.str` - an actual string. -/
inductive Cell where
  | none : Cell
  | nan : Cell
  | str : String → Cell
deriving DecidableEq

/-- Python truthiness of a cell (`NaN` is truthy, `""` and `None` falsy). -/
def Cell.truthy : Cell → Bool
  | Cell.none => false
  | Cell.nan => true
  | Cell.str s => s ≠ ""

/-- `pd.to_datetime(value, errors="coerce")` on a cell: `None` and `NaN`
coerce to `NaT`. -/
def toDatetimeCell : Cell → Option PDateTime
  | Cell.none => none
  | Cell.nan => none
  | Cell.str s => toDatetime s

/-- `str(value)` as fed into the parser (`NaN` prints as `"nan"`). -/
def Cell.pyStr : Cell → String
  | Cell.none => "None"
  | Cell.nan => "nan"
  | Cell.str s => s

/-! ## `parse_pl_date` -/

def monthsFull : List (String × Nat) :=
  [("stycznia", 1), ("lutego", 2), ("marca", 3), ("kwietnia", 4), ("maja", 5),
   ("czerwca", 6), ("lipca", 7), ("sierpnia", 8), ("wrzesnia", 9),
   ("pazdziernika", 10), ("listopada", 11), ("grudnia", 12)]

def monthsAbbr : List (String × Nat) :=
  [("sty", 1), ("lut", 2), ("mar", 3), ("kwi", 4), ("maj", 5), ("cze", 6),
   ("lip", 7), ("sie", 8), ("wrz", 9), ("paz", 10), ("lis", 11), ("gru", 12)]

/-- `\s+` (at least one whitespace, greedy): the rest after the run. -/
def skipWs1 (l : List Char) : Option (List Char) :=
  if (l.takeWhile isWs).isEmpty then none else some (l.dropWhile isWs)

/-- A maximal nonempty run of `[a-ząćęłńóśźż]`: the run and the rest. -/
def takePlLetters (l : List Char) : Option (List Char × List Char) :=
  let run := l.takeWhile isPlLetter
  if run.isEmpty then none else some (run, l.dropWhile isPlLetter)

/-- One anchored attempt of `(\d{1,2})\s+([a-ząćęłńóśźż]+)\s+(\d{4})` with
`k` digits for the first group. -/
def matchFullK (k : Nat) (l : List Char) : Option (Nat × String × Nat) :=
  match parseDigits k l with
  | none => none
  | some (d, r1) =>
    match skipWs1 r1 with
    | none => none
    | some r2 =>
      match takePlLetters r2 with
      | none => none
      | some (mon, r3) =>
        match skipWs1 r3 with
        | none => none
        | some r4 =>
          match parseDigits 4 r4 with
          | none => none
          | some (y, _) => some (d, String.mk mon, y)

/-- The attempt at one start position: `\d{1,2}` is greedy, so two digits are
tried before one. -/
def matchFullAt (l : List Char) : Option (Nat × String × Nat) :=
  (matchFullK 2 l).orElse (fun _ => matchFullK 1 l)

/-- `re.search` (leftmost match) of the full-date pattern. -/
def searchFull : List Char → Option (Nat × String × Nat)
  | [] => none
  | c :: rest => (matchFullAt (c :: rest)).orElse (fun _ => searchFull rest)

/-- One anchored attempt of `(\d{1,2})\s+([a-z]{3})\b` with `k` digits. -/
def matchAbbrK (k : Nat) (l : List Char) : Option (Nat × String) :=
  match parseDigits k l with
  | none => none
  | some (d, r1) =>
    match skipWs1 r1 with
    | none => none
    | some r2 =>
      let letters := r2.take 3
      if letters.length = 3 ∧ letters.all isAsciiLower then
        match r2.drop 3 with
        | [] => some (d, String.mk letters)
        | b :: _ => if isWordChar b then none else some (d, String.mk letters)
      else none

def matchAbbrAt (l : List Char) : Option (Nat × String) :=
  (matchAbbrK 2 l).orElse (fun _ => matchAbbrK 1 l)

/-- `re.search` (leftmost match) of the abbreviated pattern. -/
def searchAbbr : List Char → Option (Nat × String)
  | [] => none
  | c :: rest => (matchAbbrAt (c :: rest)).orElse (fun _ => searchAbbr rest)

/-- `re.sub(r"^(opublikowana|opublikowano|dodano):\s*", "", s)`. -/
def stripPublishedPrefix (l : List Char) : List Char :=
  let try1 : List Char → Option (List Char) := fun w =>
    if (w ++ [':']).isPrefixOf l then some ((l.drop (w.length + 1)).dropWhile isWs)
    else none
  match try1 "opublikowana".toList with
  | some r => r
  | none =>
    match try1 "opublikowano".toList with
    | some r => r
    | none =>
      match try1 "dodano".toList with
      | some r => r
      | none => l

/-- `months_full.get(mon) or months_abbr.get(mon[:3])` of stage 1. -/
def monthFullLookup (mon : String) : Option Nat :=
  (monthsFull.lookup mon).orElse (fun _ => monthsAbbr.lookup (String.mk (mon.toList.take 3)))

/-- Stage 3 of `parse_pl_date`: `pd.to_datetime(text, dayfirst=True,
errors="raise")` on the original value, with the `except` path as `none`. -/
def plStage3 (text : Cell) : Option PDateTime := toDatetimeCell text

/-- Stage 2 of `parse_pl_date`: the abbreviated pattern, current-year
assumption; an unrecognized month falls through to stage 3, but an invalid
calendar day returns `None` at once (the `except: return None`). -/
def plStage2 (yearNow : Nat) (s : List Char) (text : Cell) : Option PDateTime :=
  match searchAbbr s with
  | some (d, mon3) =>
    match monthsAbbr.lookup mon3 with
    | some mm => mkValidDate yearNow mm d
    | none => plStage3 text
  | none => plStage3 text

/-- `parse_pl_date` (src/scraper/scrape_pracuj.py:65-110).  `yearNow` is
`datetime.now().year` passed explicitly.  Stage 1 tries the full pattern;
an unrecognized month word falls through, an invalid calendar day returns
`None` at once (the `except: return None`). -/
def parse_pl_date (yearNow : Nat) (text : Cell) : Option PDateTime :=
  if ¬ text.truthy then none
  else
    let s := stripPublishedPrefix (pyStrip (stripAccents (pyLower text.pyStr.toList)))
    match searchFull s with
    | some (d, mon, y) =>
      match monthFullLookup (String.mk (stripAccents mon.toList)) with
      | some mm => mkValidDate y mm d
      | none => plStage2 yearNow s text
    | none => plStage2 yearNow s text

/-! ## The per-row date resolver of `run_scrape` -/

/-- `_parse_any_date_row` (src/scraper/scrape_pracuj.py:495-501): prefer a
truthy `published_iso` (coerced, so an unparseable value yields `NaT` without
falling through), else `parse_pl_date(published)`, else coerced `first_seen`. -/
def parse_any_date_row (yearNow : Nat) (pubIso pub fs : Cell) : Option PDateTime :=
  if pubIso.truthy then toDatetimeCell pubIso
  else
    match parse_pl_date yearNow pub with
    | some d => some d
    | none => toDatetimeCell fs

/-! ## Offer rows

A row of the master/new DataFrames, with the canonical column set of
`load_master`.  `Option.none` models a missing value (`NaN`/`None` in a
dict; pandas `drop_duplicates` and `fillna` treat all missing values alike). -/

structure Row where
  job_id : Option String
  title : Option String
  company : Option String
  employer_name : Option String
  location : Option String
  url : Option String
  industry : Option String
  published : Option String
  published_iso : Option String
  valid_through : Option String
  first_seen : Option String
  source : Option String
deriving DecidableEq

/-- Python `a or b` on a string-or-missing value (`None` and `""` are falsy). -/
def pyOrS (a : Option String) (b : String) : String :=
  match a with
  | some s => if s = "" then b else s
  | none => b

/-- The identity used by `parse_list_page` and pagination termination:
`o.get("job_id") or o["url"]` - the structured numeric id when present,
else the canonical link. -/
def identKey (r : Row) : String := pyOrS r.job_id (r.url.getD "")

/-- The merge key of `dedupe_concat` / `run_scrape`:
`job_id.fillna("") + "|" + url.fillna("")`. -/
def mkey (r : Row) : String := r.job_id.getD "" ++ "|" ++ r.url.getD ""

/-- The key of `drop_duplicates(subset=["job_id","url"])`. -/
def pairKey (r : Row) : Option String × Option String := (r.job_id, r.url)

/-! ## `parse_list_page` -/

/-- An anchor element matched by `a[href*='/praca/'][href*='oferta']`:
its `href` attribute and its stripped text (the selector itself is
collaborator surface). -/
structure Anchor where
  href : String
  title : String
deriving DecidableEq

/-- `re.search(r"oferta.*?(\d{7,})", href)`: the suffix after the first
occurrence of a pattern. -/
def afterLit (pat : List Char) : List Char → Option (List Char)
  | [] => if pat.isEmpty then some [] else none
  | c :: rest =>
    if pat.isPrefixOf (c :: rest) then some ((c :: rest).drop pat.length)
    else afterLit pat rest

/-- The first maximal digit run of length at least 7. -/
def findDigitRun7 : List Char → Option (List Char)
  | [] => none
  | c :: rest =>
    let run := (c :: rest).takeWhile isDig
    if 7 ≤ run.length then some run else findDigitRun7 rest

/-- The captured group of `re.search(r"oferta.*?(\d{7,})", href)`:
the first digit run of length ≥ 7 after the first `oferta`. -/
def findJobId (href : String) : Option String :=
  match afterLit "oferta".toList href.toList with
  | none => none
  | some rest => (findDigitRun7 rest).map String.mk

/-- One stub dict as built in `parse_list_page`; keys the dict does not
carry are `none` (they surface as `NaN` once a DataFrame is built). -/
def stubRow (job_id : Option String) (title url : String) : Row :=
  { job_id := job_id, title := some title, company := none, location := none,
    url := some url, employer_name := none, industry := none, published := none,
    published_iso := none, valid_through := none, first_seen := none,
    source := none }

/-- An insertion-ordered dict upsert (`uniq[k] = o`): last value wins, the
position of the first insertion of the key is kept. -/
def dictUpsert (k : String) (v : Row) : List (String × Row) → List (String × Row)
  | [] => [(k, v)]
  | (k1, v1) :: rest =>
    if k1 = k then (k, v) :: rest else (k1, v1) :: dictUpsert k v rest

/-- `parse_list_page` (src/scraper/scrape_pracuj.py:128-152): build stubs
from the anchors, then deduplicate by `job_id or url` via an
insertion-ordered dict. -/
def parse_list_page (anchors : List Anchor) : List Row :=
  let offers := anchors.filterMap (fun a =>
    let href := String.mk (pyStrip a.href.toList)
    let title := a.title
    if href = "" ∨ title = "" then none
    else
      let url := if href.toList.head? = some '/' then "https://www.pracuj.pl" ++ href else href
      some (stubRow (findJobId href) title url))
  (offers.foldl (fun acc o => dictUpsert (identKey o) o acc) []).map (fun p => p.2)

/-! ## `iterate_pages_for_keyword` -/

/-- Case-insensitive substring test: `re.compile(keyword, re.IGNORECASE)`
`.search(title)` for a metacharacter-free keyword. -/
def containsSub (pat : List Char) : List Char → Bool
  | [] => pat.isEmpty
  | c :: rest => pat.isPrefixOf (c :: rest) || containsSub pat rest

def titleMatches (kw : String) (r : Row) : Bool :=
  containsSub (pyLower kw.toList) (pyLower (pyOrS r.title "").toList)

/-- The `while page <= max_pages` loop of `iterate_pages_for_keyword`
(src/scraper/scrape_pracuj.py:154-182).  `pages p` is the parsed anchor list
of the page-`p` fetch (`none` = fetch failure); `remaining` counts the pages
the bound still allows (`max_pages - page + 1`).  Returns the accumulated
stubs and the number of fetches performed. -/
def iterGo (kw : String) (pages : Nat → Option (List Anchor)) :
    Nat → Nat → List Row → Nat → List Row × Nat
  | 0, _, out, fetched => (out, fetched)
  | n + 1, page, out, fetched =>
    match pages page with
    | none => (out, fetched + 1)
    | some anchors =>
      let batch0 := parse_list_page anchors
      if batch0.isEmpty then (out, fetched + 1)
      else
        let batch := batch0.filter (titleMatches kw)
        if batch.all (fun b => identKey b ∈ out.map identKey) && decide (1 < page) then
          (out, fetched + 1)
        else
          iterGo kw pages n (page + 1) (out ++ batch) (fetched + 1)

/-- `iterate_pages_for_keyword`, instrumented with the fetch count. -/
def iterate_pages_for_keyword (kw : String) (pages : Nat → Option (List Anchor))
    (maxPages : Nat) : List Row × Nat :=
  iterGo kw pages maxPages 1 [] 0

/-! ## Merge engine (`dedupe_concat`, delta computation of `run_scrape`) -/

/-- pandas `drop_duplicates` (keep-first) under a key function, fused with
the key computation: keep a row iff its key was not seen before. -/
def dropDupBy {κ : Type} [DecidableEq κ] (f : Row → κ) : List Row → List κ → List Row
  | [], _ => []
  | r :: rs, seen =>
    if f r ∈ seen then dropDupBy f rs seen
    else r :: dropDupBy f rs (f r :: seen)

/-- `drop_duplicates(subset=["__key"])` on the merge key. -/
def dropDupKeys (l : List Row) (seen : List String) : List Row :=
  dropDupBy mkey l seen

/-- `dedupe_concat` (src/scraper/scrape_pracuj.py:295-302): concatenate
master and new rows, drop duplicate merge keys keeping the first
(i.e. persisted) copy. -/
def dedupe_concat (master newdf : List Row) : List Row :=
  dropDupKeys (master ++ newdf) []

/-- The Delta of `run_scrape` (lines 482-485): all of `df_new` when the
master is empty, else the rows whose merge key is absent from the master. -/
def new_only (master dfnew : List Row) : List Row :=
  if master.isEmpty then dfnew
  else dfnew.filter (fun r => decide (mkey r ∉ master.map mkey))

/-- `drop_duplicates(subset=["job_id","url"])` (keep-first); pandas treats
missing values as equal, as does `Option.none`. -/
def dropDupPairs (l : List Row) (seen : List (Option String × Option String)) : List Row :=
  dropDupBy pairKey l seen

/-! ## `enrich_offer_details` -/

/-- A `JobPosting` candidate from a JSON-LD block (`@type == "JobPosting"`,
possibly via `@graph` or a top-level list); `orgName` is
`hiringOrganization.name` when `hiringOrganization` is a dict with a name. -/
structure JobPosting where
  orgName : Option String
  datePosted : Option String
  validThrough : Option String
deriving DecidableEq

/-- A fetched detail page, abstracted to the element data the extraction
strategies read (the CSS selectors and DOM walking are collaborator
surface, per the spec's scope): the flattened JSON-LD candidates in
document order, the `[data-test="text-employerName"]` text if the element
exists, the joined `[data-test="section-duration-info"]` text if present,
and the result of the `Branża` free-text heuristic. -/
structure DetailPage where
  jobPostings : List JobPosting
  employerNameEl : Option String
  durationText : Option String
  industryText : Option String
deriving DecidableEq

/-- Python truthiness of an optional string. -/
def optTruthy : Option String → Bool
  | some s => s ≠ ""
  | none => false

def pad2 (n : Nat) : String := if n < 10 then "0" ++ toString n else toString n

def pad4 (n : Nat) : String :=
  if n < 10 then "000" ++ toString n
  else if n < 100 then "00" ++ toString n
  else if n < 1000 then "0" ++ toString n
  else toString n

/-- `strftime("%Y-%m-%d")`. -/
def fmtYMD (d : PDateTime) : String :=
  pad4 d.year ++ "-" ++ pad2 d.month ++ "-" ++ pad2 d.day

/-- `strftime("%d %m %Y")`. -/
def fmtDMY (d : PDateTime) : String :=
  pad2 d.day ++ " " ++ pad2 d.month ++ " " ++ pad4 d.year

/-- The trailing part of `do\s+(\d{1,2})\s+([a-z]{3})` after the digits were
taken with width `k`. -/
def matchDoDigits (k : Nat) (l : List Char) : Option (Nat × String) :=
  match parseDigits k l with
  | none => none
  | some (d, r2) =>
    match skipWs1 r2 with
    | none => none
    | some r3 =>
      let letters := r3.take 3
      if letters.length = 3 ∧ letters.all isAsciiLower then some (d, String.mk letters)
      else none

/-- One anchored attempt of `do\s+(\d{1,2})\s+([a-z]{3})`. -/
def matchDoAt (l : List Char) : Option (Nat × String) :=
  match l with
  | 'd' :: 'o' :: r0 =>
    match skipWs1 r0 with
    | none => none
    | some r1 => (matchDoDigits 2 r1).orElse (fun _ => matchDoDigits 1 r1)
  | _ => none

/-- `re.search` (leftmost) of the `do DD mmm` pattern. -/
def searchDo : List Char → Option (Nat × String)
  | [] => none
  | c :: rest => (matchDoAt (c :: rest)).orElse (fun _ => searchDo rest)

/-- `enrich_offer_details` (src/scraper/scrape_pracuj.py:184-277).
`page = none` is a failed detail fetch: the offer is returned unchanged.
Otherwise: employer from the first truthy JSON-LD organization name, else
the header element; `datePosted`/`validThrough` keep the last truthy JSON-LD
value; a missing `validThrough` falls back to the `do DD mmm` block
(current-year heuristic, invalid days swallowed by `except: pass`);
`published_iso`/`published` are set only when `datePosted` is truthy and
coerces to a real timestamp. -/
def enrich_offer_details (yearNow : Nat) (page : Option DetailPage) (offer : Row) : Row :=
  match page with
  | none => offer
  | some pg =>
    let employer0 : Option String := pg.jobPostings.foldl
      (fun e jp => if optTruthy jp.orgName then (if optTruthy e then e else jp.orgName) else e)
      none
    let datePostedIso : Option String := pg.jobPostings.foldl
      (fun d jp => if optTruthy jp.datePosted then jp.datePosted else d) none
    let validThroughIso0 : Option String := pg.jobPostings.foldl
      (fun v jp => if optTruthy jp.validThrough then jp.validThrough else v) none
    let employer : Option String :=
      if optTruthy employer0 then employer0
      else
        match pg.employerNameEl with
        | some t => some t
        | none => employer0
    let validThroughIso : Option String :=
      if optTruthy validThroughIso0 then validThroughIso0
      else
        match pg.durationText with
        | none => validThroughIso0
        | some dtext =>
          match searchDo (stripAccents (pyLower dtext.toList)) with
          | none => validThroughIso0
          | some (d, mon3) =>
            match monthsAbbr.lookup mon3 with
            | none => validThroughIso0
            | some mm =>
              match mkValidDate yearNow mm d with
              | none => validThroughIso0
              | some vt => some (fmtYMD vt)
    let pub : Option String × Option String :=
      if optTruthy datePostedIso then
        match toDatetime (datePostedIso.getD "") with
        | some dp => (some (fmtYMD dp), some (fmtDMY dp))
        | none => (offer.published_iso, offer.published)
      else (offer.published_iso, offer.published)
    { offer with
      employer_name := employer,
      industry := pg.industryText,
      published_iso := pub.1,
      published := pub.2,
      valid_through := if optTruthy validThroughIso then validThroughIso
        else offer.valid_through }

/-! ## The acquisition stage of `run_scrape` -/

/-- Stamp `source` and `first_seen` on a collected stub
(src/scraper/scrape_pracuj.py:466-467). -/
def withMeta (fs : String) (o : Row) : Row :=
  { o with source := some "pracuj.pl", first_seen := some fs }

/-- The per-offer loop of `run_scrape` (lines 465-474): stamp metadata, then
enrich; the `try/except` around enrichment is modelled by the enrichment
being a total function.  `fetchDetail` abstracts `fetch_page(offer["url"])`
plus the soup, returning `none` on fetch failure. -/
def processOffers (yearNow : Nat) (fetchDetail : Row → Option DetailPage) (fs : String)
    (stubs : List Row) : List Row :=
  stubs.map (fun o => enrich_offer_details yearNow (fetchDetail (withMeta fs o)) (withMeta fs o))

/-- `df_new` (line 476-477): deduplicate on the `(job_id, url)` pair, keep
rows with a present title and url. -/
def dfNew (yearNow : Nat) (fetchDetail : Row → Option DetailPage) (fs : String)
    (stubs : List Row) : List Row :=
  (dropDupPairs (processOffers yearNow fetchDetail fs stubs) []).filter
    (fun r => r.title.isSome && r.url.isSome)

/-! ## Ranking (`sort_values` descending, missing last) -/

/-- The sort key as a natural number (only compared between resolved rows). -/
def keyNat {α : Type} (key : α → Option PDateTime) (r : α) : Nat :=
  ((key r).map PDateTime.toNat).getD 0

/-- `sort_values(by=k, ascending=False, na_position="last")` after pandas
`nargsort`: for descending order the non-missing rows are reversed, stably
sorted ascending, and the result is reversed again (the double reversal of
pandas GH#6399, which makes descending sorts stable on ties); the missing
rows are appended in original order. -/
def sortDesc {α : Type} (key : α → Option PDateTime) (rows : List α) : List α :=
  let resolved := rows.filter (fun r => (key r).isSome)
  let unresolved := rows.filter (fun r => !(key r).isSome)
  (List.insertionSort (fun a b => keyNat key a ≤ keyNat key b) resolved.reverse).reverse ++
    unresolved

/-- A cell after `fillna("")`: always a string. -/
def fillCell (o : Option String) : Cell := Cell.str (o.getD "")

/-- The sort key of `build_html_summary` (same resolver, but applied after
`fillna("")`, so missing values are falsy empty strings). -/
def bhsKey (yearNow : Nat) (r : Row) : Option PDateTime :=
  parse_any_date_row yearNow (fillCell r.published_iso) (fillCell r.published)
    (fillCell r.first_seen)

def htmlRowOf (r : Row) : String :=
  let company := pyOrS r.employer_name (pyOrS r.company "—")
  let title := pyOrS r.title "—"
  let url := r.url.getD ""
  let dateS := r.published_iso.getD ""
  let linkHtml := "<a href=\"" ++ url ++
    "\" target=\"_blank\" rel=\"noopener noreferrer\">otwórz ogłoszenie</a>"
  "<tr><td>" ++ company ++ "</td><td>" ++ title ++ "</td><td>" ++ linkHtml ++
    "</td><td>" ++ dateS ++ "</td></tr>"

def bhsPlaceholder : String := "<p>(Brak nowych ofert)</p>"

/-- `build_html_summary` (src/scraper/scrape_pracuj.py:307-358): a `None` or
empty DataFrame yields the explicit placeholder; otherwise one HTML table of
the rows sorted freshest-first. -/
def build_html_summary (yearNow : Nat) (df : Option (List Row)) : String :=
  match df with
  | none => bhsPlaceholder
  | some rows =>
    if rows.isEmpty then bhsPlaceholder
    else
      let sorted := sortDesc (bhsKey yearNow) rows
      let rowsHtml := String.join (sorted.map htmlRowOf)
      "<p style='font-family:Arial,sans-serif'>Poniżej <strong>nowe oferty</strong> (Pracuj.pl):</p>" ++
        "<table border='1' cellpadding='6' cellspacing='0' style='border-collapse:collapse;width:100%;font-family:Arial,sans-serif;font-size:13px'>" ++
        "<thead><tr><th style='text-align:left'>Nazwa firmy</th>" ++
        "<th style='text-align:left'>Nazwa stanowiska</th>" ++
        "<th style='text-align:left'>Link</th>" ++
        "<th style='text-align:left'>Data dodania ogłoszenia</th>" ++
        "</tr></thead><tbody>" ++ rowsHtml ++ "</tbody></table>"

/-! ## Predicates and concrete fixtures used by the verification -/

/-- A resolver/parser result is either unresolved or a real calendar date. -/
def OkDate : Option PDateTime → Prop
  | none => True
  | some d => ValidDT d

/-- A concrete row constructor for test fixtures (remaining columns absent). -/
def mkRow (j t u pub pubIso fs : Option String) : Row :=
  { job_id := j, title := t, company := none, employer_name := none,
    location := none, url := u, industry := none, published := pub,
    published_iso := pubIso, valid_through := none, first_seen := fs,
    source := none }

/-- Two records with the same structured id but different links. -/
def cxIdA : Row :=
  mkRow (some "1234567") (some "Glowna ksiegowa")
    (some "https://www.pracuj.pl/praca/a,oferta,1234567") none none none

def cxIdB : Row :=
  mkRow (some "1234567") (some "Glowna ksiegowa")
    (some "https://www.pracuj.pl/praca/b,oferta,1234567") none none none

/-- A persisted record, and a freshly acquired copy with the same
`(job_id, url)` but a different `first_seen`. -/
def cxPersisted : Row :=
  mkRow (some "1234567") (some "Ksiegowa") (some "https://www.pracuj.pl/u")
    none none (some "2025-01-01 00:00:00+0100")

def cxFreshDup : Row :=
  mkRow (some "1234567") (some "Ksiegowa") (some "https://www.pracuj.pl/u")
    none none (some "2025-09-09 00:00:00+0200")

/-- A fresh record with the persisted record's structured id but another
link. -/
def cxFreshDiffUrl : Row :=
  mkRow (some "1234567") (some "Ksiegowa") (some "https://www.pracuj.pl/v")
    none none (some "2025-09-09 00:00:00+0200")

/-- A one-anchor listing page for the pagination witness. -/
def ancW : List Anchor :=
  [⟨"/praca/ksiegowa,oferta,1234567", "Glowna ksiegowa"⟩]

/-- A stub for the enrichment witness. -/
def stubW : Row :=
  stubRow (some "1234567") "Glowna ksiegowa"
    "https://www.pracuj.pl/praca/x,oferta,1234567"

/-! ## Lemmas: validity of every produced date -/

theorem okDate_mkValidDateTime (y m d hh mi ss : Nat) :
    OkDate (mkValidDateTime y m d hh mi ss) := by
  unfold mkValidDateTime
  split
  · assumption
  · trivial

theorem okDate_mkValidDate (y m d : Nat) : OkDate (mkValidDate y m d) :=
  okDate_mkValidDateTime y m d 0 0 0

theorem okDate_toDatetime (s : String) : OkDate (toDatetime s) := by
  simp only [toDatetime]
  split
  · trivial
  · split
    · trivial
    · apply okDate_mkValidDateTime

theorem okDate_toDatetimeCell (c : Cell) : OkDate (toDatetimeCell c) := by
  cases c with
  | none => trivial
  | nan => trivial
  | str s => exact okDate_toDatetime s

theorem okDate_plStage3 (text : Cell) : OkDate (plStage3 text) :=
  okDate_toDatetimeCell text

theorem okDate_plStage2 (yearNow : Nat) (s : List Char) (text : Cell) :
    OkDate (plStage2 yearNow s text) := by
  unfold plStage2
  split
  · split
    · apply okDate_mkValidDate
    · apply okDate_plStage3
  · apply okDate_plStage3

theorem okDate_parse_pl_date (yearNow : Nat) (text : Cell) :
    OkDate (parse_pl_date yearNow text) := by
  simp only [parse_pl_date]
  split
  · trivial
  · split
    · split
      · apply okDate_mkValidDate
      · apply okDate_plStage2
    · apply okDate_plStage2

theorem okDate_parse_any_date_row (yearNow : Nat) (pubIso pub fs : Cell) :
    OkDate (parse_any_date_row yearNow pubIso pub fs) := by
  unfold parse_any_date_row
  split
  · apply okDate_toDatetimeCell
  · split
    · rename_i d hd
      have h := okDate_parse_pl_date yearNow pub
      rw [hd] at h
      exact h
    · apply okDate_toDatetimeCell

/-! ## Lemmas: the descending sort -/

theorem dropDupBy_spec {κ : Type} [DecidableEq κ] (f : Row → κ) :
    ∀ (l : List Row) (seen : List κ),
      (dropDupBy f l seen).Pairwise (fun a b => f a ≠ f b) ∧
        ∀ r ∈ dropDupBy f l seen, f r ∉ seen := by
  intro l
  induction l with
  | nil => intro seen; simp [dropDupBy]
  | cons r rs ih =>
    intro seen
    by_cases h : f r ∈ seen
    · simpa [dropDupBy, h] using ih seen
    · simp only [dropDupBy, if_neg h]
      obtain ⟨ihp, ihm⟩ := ih (f r :: seen)
      refine ⟨List.Pairwise.cons ?_ ihp, ?_⟩
      · intro b hb heq
        exact ihm b hb (heq ▸ List.mem_cons_self _ _)
      · intro x hx
        rcases List.mem_cons.mp hx with hx1 | hx2
        · rw [hx1]; exact h
        · intro hmem
          exact ihm x hx2 (List.mem_cons_of_mem _ hmem)

theorem dropDupBy_pairwise {κ : Type} [DecidableEq κ] (f : Row → κ) (l : List Row)
    (seen : List κ) : (dropDupBy f l seen).Pairwise (fun a b => f a ≠ f b) :=
  (dropDupBy_spec f l seen).1

theorem mem_map_dropDupBy {κ : Type} [DecidableEq κ] (f : Row → κ) :
    ∀ (l : List Row) (seen : List κ) (k : κ),
      k ∈ l.map f → k ∉ seen → k ∈ (dropDupBy f l seen).map f := by
  intro l
  induction l with
  | nil => intro seen k hm _; simp at hm
  | cons r rs ih =>
    intro seen k hm hns
    rw [List.map_cons, List.mem_cons] at hm
    by_cases h : f r ∈ seen
    · simp only [dropDupBy, if_pos h]
      rcases hm with hm | hm
      · exact absurd (hm ▸ h) hns
      · exact ih seen k hm hns
    · simp only [dropDupBy, if_neg h, List.map_cons, List.mem_cons]
      rcases hm with hm | hm
      · exact Or.inl hm
      · by_cases hk : k = f r
        · exact Or.inl hk
        · refine Or.inr (ih _ k hm ?_)
          intro hs
          rcases List.mem_cons.mp hs with h1 | h2
          · exact hk h1
          · exact hns h2

theorem dropDupBy_eq_nil {κ : Type} [DecidableEq κ] (f : Row → κ) :
    ∀ (l : List Row) (seen : List κ), (∀ r ∈ l, f r ∈ seen) → dropDupBy f l seen = [] := by
  intro l
  induction l with
  | nil => intro seen _; rfl
  | cons r rs ih =>
    intro seen hall
    have hr : f r ∈ seen := hall r (List.mem_cons_self _ _)
    simp only [dropDupBy, if_pos hr]
    exact ih seen (fun x hx => hall x (List.mem_cons_of_mem _ hx))

theorem dropDupBy_congr_seen {κ : Type} [DecidableEq κ] (f : Row → κ) :
    ∀ (l : List Row) (s1 s2 : List κ), (∀ k, k ∈ s1 ↔ k ∈ s2) →
      dropDupBy f l s1 = dropDupBy f l s2 := by
  intro l
  induction l with
  | nil => intro s1 s2 _; rfl
  | cons r rs ih =>
    intro s1 s2 hiff
    by_cases h : f r ∈ s1
    · have h2 : f r ∈ s2 := (hiff _).mp h
      simp only [dropDupBy, if_pos h, if_pos h2]
      exact ih s1 s2 hiff
    · have h2 : f r ∉ s2 := fun hm => h ((hiff _).mpr hm)
      simp only [dropDupBy, if_neg h, if_neg h2]
      congr 1
      refine ih _ _ ?_
      intro k
      simp only [List.mem_cons]
      exact or_congr Iff.rfl (hiff k)

theorem dropDupBy_append {κ : Type} [DecidableEq κ] (f : Row → κ) :
    ∀ (m n : List Row) (seen : List κ),
      m.Pairwise (fun a b => f a ≠ f b) → (∀ r ∈ m, f r ∉ seen) →
      dropDupBy f (m ++ n) seen = m ++ dropDupBy f n (m.map f ++ seen) := by
  intro m
  induction m with
  | nil => intro n seen _ _; simp
  | cons r rs ih =>
    intro n seen hpw hns
    have hr : f r ∉ seen := hns r (List.mem_cons_self _ _)
    simp only [List.cons_append, dropDupBy, if_neg hr]
    congr 1
    have hrs : ∀ x ∈ rs, f x ∉ (f r :: seen) := by
      intro x hx
      intro hmem
      rcases List.mem_cons.mp hmem with h1 | h2
      · exact (List.rel_of_pairwise_cons hpw hx) h1.symm
      · exact hns x (List.mem_cons_of_mem _ hx) h2
    simp only [List.append_eq]
    rw [ih n (f r :: seen) hpw.of_cons hrs]
    congr 1
    refine dropDupBy_congr_seen f n _ _ ?_
    intro k
    simp only [List.mem_append, List.mem_cons, List.map_cons]
    tauto

theorem dropDupBy_of_pairwise {κ : Type} [DecidableEq κ] (f : Row → κ) :
    ∀ (l : List Row) (seen : List κ),
      l.Pairwise (fun a b => f a ≠ f b) → (∀ r ∈ l, f r ∉ seen) →
      dropDupBy f l seen = l := by
  intro l seen hpw hns
  have h := dropDupBy_append f l [] seen hpw hns
  simpa [dropDupBy] using h

/-! ## Lemmas: the merge engine -/

theorem mkey_mem_dedupe_concat (m n : List Row) (r : Row) (hr : r ∈ n) :
    mkey r ∈ (dedupe_concat m n).map mkey := by
  unfold dedupe_concat dropDupKeys
  apply mem_map_dropDupBy
  · rw [List.map_append]
    exact List.mem_append_right _ (List.mem_map_of_mem _ hr)
  · simp

theorem dedupe_concat_pairwise (m n : List Row) :
    (dedupe_concat m n).Pairwise (fun a b => mkey a ≠ mkey b) :=
  dropDupBy_pairwise mkey (m ++ n) []

theorem dedupe_concat_of_master_pairwise (m n : List Row)
    (hw : m.Pairwise (fun a b => mkey a ≠ mkey b)) :
    dedupe_concat m n = m ++ dropDupKeys n (m.map mkey) := by
  unfold dedupe_concat dropDupKeys
  rw [dropDupBy_append mkey m n [] hw (by simp)]
  simp

/-! ## Lemmas: the enrichment stage -/

theorem pairKey_withMeta (fs : String) (o : Row) : pairKey (withMeta fs o) = pairKey o :=
  rfl

theorem pairKey_enrich (yearNow : Nat) (p : Option DetailPage) (o : Row) :
    pairKey (enrich_offer_details yearNow p o) = pairKey o := by
  cases p with
  | none => rfl
  | some pg => rfl

/-! ## Claim theorems -/

/-- Claim C2: merge is idempotent.  For every persisted Corpus `m` and every
freshly-acquired offer set `n` (deduplicated or not), merging `n` a second
time in a row yields an empty second Delta and leaves the merged Corpus
unchanged (in particular, its size). -/
theorem merge_idempotent (m n : List Row) :
    new_only (dedupe_concat m n) n = [] ∧
      dedupe_concat (dedupe_concat m n) n = dedupe_concat m n := by
  constructor
  · by_cases hn : n = []
    · subst hn
      unfold new_only
      split
      · rfl
      · exact List.filter_nil _
    · have hc : (dedupe_concat m n).isEmpty = false := by
        obtain ⟨r, hr⟩ := List.exists_mem_of_ne_nil n hn
        have hk := mkey_mem_dedupe_concat m n r hr
        cases hcc : dedupe_concat m n with
        | nil => rw [hcc] at hk; simp at hk
        | cons x xs => rfl
      unfold new_only
      rw [hc]
      simp only [Bool.false_eq_true, if_false]
      rw [List.filter_eq_nil_iff]
      intro r hr
      simp only [decide_eq_true_eq, Decidable.not_not]
      exact mkey_mem_dedupe_concat m n r hr
  · have h := dedupe_concat_of_master_pairwise (dedupe_concat m n) n
      (dedupe_concat_pairwise m n)
    rw [h]
    rw [dropDupKeys, dropDupBy_eq_nil mkey n ((dedupe_concat m n).map mkey)
      (fun r hr => mkey_mem_dedupe_concat m n r hr)]
    simp

/-- Claim C3 (counterexample): after a merge, two distinct records can share
the spec's `identity` (structured id if extractable, else link): the merge
deduplicates on the composite `job_id|url` key, so two records with the same
structured id but different links are both retained. -/
theorem merge_identity_collision_cx :
    identKey cxIdA = identKey cxIdB ∧ cxIdA ≠ cxIdB ∧
      dedupe_concat [] [cxIdA, cxIdB] = [cxIdA, cxIdB] := by
  decide

/-- Claim C3 (amended): after every merge, no two distinct records of the
merged Corpus share the composite merge key `job_id|url`; that composite
key - not the id-else-link identity - is the dedup key of the merge. -/
theorem merge_composite_key_unique (m n : List Row) :
    (dedupe_concat m n).Pairwise (fun a b => mkey a ≠ mkey b) :=
  dedupe_concat_pairwise m n

/-- Claim C8 (counterexample): re-merging an offer whose spec `identity`
(structured id) already exists in the persisted Corpus need not be a no-op:
with the same id but a different link, the fresh copy is retained alongside
the persisted one and the Corpus grows. -/
theorem remerge_identity_not_noop_cx :
    identKey cxFreshDiffUrl ∈ [cxPersisted].map identKey ∧
      dedupe_concat [cxPersisted] [cxFreshDiffUrl] ≠ [cxPersisted] ∧
      (dedupe_concat [cxPersisted] [cxFreshDiffUrl]).length = 2 := by
  decide

/-- Claim C8 (amended): re-merging offers whose composite key `job_id|url`
already exists in a duplicate-free persisted Corpus is a no-op for those
records: the merged Corpus is the persisted rows - every field, `first_seen`
included, untouched - followed by only the fresh rows with unseen keys. -/
theorem remerge_existing_key_noop (m n : List Row)
    (hw : m.Pairwise (fun a b => mkey a ≠ mkey b)) :
    dedupe_concat m n = m ++ dropDupKeys n (m.map mkey) :=
  dedupe_concat_of_master_pairwise m n hw

theorem remerge_existing_key_noop_witness :
    ([cxPersisted].Pairwise (fun a b => mkey a ≠ mkey b)) ∧
      dedupe_concat [cxPersisted] [cxFreshDup] =
        [cxPersisted] ++ dropDupKeys [cxFreshDup] ([cxPersisted].map mkey) :=
  ⟨by decide, remerge_existing_key_noop [cxPersisted] [cxFreshDup] (by decide)⟩

/-- Claim C4: the Date Resolver takes candidates in strict priority order:
with both a structured date `2025-09-12` and the natural-language
`12 września 2025` present it returns 2025-09-12 regardless of the system
year (structured wins); with only `do 11 paź` (no structured date, no year)
and the system date in 2025 it resolves to 11 October 2025. -/
theorem date_resolver_priority (yearNow : Nat) :
    parse_any_date_row yearNow (Cell.str "2025-09-12")
        (Cell.str "12 września 2025") Cell.none = some ⟨2025, 9, 12, 0, 0, 0⟩ ∧
      parse_any_date_row 2025 Cell.none (Cell.str "do 11 paź") Cell.none =
        some ⟨2025, 10, 11, 0, 0, 0⟩ := by
  exact ⟨rfl, by decide⟩

/-- Claim C5 (counterexample): a date-parse failure does not always fall
through to the next stage: a present-but-unparseable structured date is
coerced to `NaT` and ends the chain unresolved, even though the
natural-language stage and the `first_seen` stage would both succeed. -/
theorem resolver_no_fallthrough_cx :
    parse_any_date_row 2025 (Cell.str "garbage") (Cell.str "12 wrzesnia 2025")
        (Cell.str "2025-01-01 00:00:00+0100") = none ∧
      parse_pl_date 2025 (Cell.str "12 wrzesnia 2025") =
        some ⟨2025, 9, 12, 0, 0, 0⟩ ∧
      toDatetimeCell (Cell.str "2025-01-01 00:00:00+0100") =
        some ⟨2025, 1, 1, 0, 0, 0⟩ := by
  decide

/-- Claim C5 (amended): an absent or empty candidate falls through to the
next stage of the resolution chain, but a present-yet-unparseable structured
date yields "unresolved" without falling through; in all cases the resolver
returns "unresolved" or a real calendar date, never an invalid or fabricated
one. -/
theorem resolver_fallthrough_on_absent (yearNow : Nat) (pubIso pub fs : Cell)
    (h : pubIso.truthy = false) :
    parse_any_date_row yearNow pubIso pub fs =
        parse_any_date_row yearNow Cell.none pub fs ∧
      ∀ c : Cell, OkDate (parse_any_date_row yearNow c pub fs) := by
  constructor
  · unfold parse_any_date_row
    rw [h]
    rfl
  · intro c
    exact okDate_parse_any_date_row yearNow c pub fs

theorem resolver_fallthrough_on_absent_witness :
    (Cell.str "").truthy = false ∧
      (parse_any_date_row 2025 (Cell.str "") (Cell.str "do 11 paź") Cell.none =
          parse_any_date_row 2025 Cell.none (Cell.str "do 11 paź") Cell.none ∧
        ∀ c : Cell, OkDate (parse_any_date_row 2025 c (Cell.str "do 11 paź") Cell.none)) :=
  ⟨by decide, resolver_fallthrough_on_absent 2025 (Cell.str "") (Cell.str "do 11 paź")
    Cell.none (by decide)⟩

/-- Claim C9: for an empty (or absent) Delta, the Report Builder produces the
explicit non-empty "no new offers" placeholder instead of a table. -/
theorem empty_delta_placeholder (yearNow : Nat) :
    build_html_summary yearNow none = bhsPlaceholder ∧
      build_html_summary yearNow (some []) = bhsPlaceholder ∧
      bhsPlaceholder ≠ "" := by
  refine ⟨rfl, rfl, by decide⟩

/-- Claim C10: `parse_pl_date` is total - its translation returns a value
for every cell (every Python exception path is an explicit `None`/`NaT`
branch, both modelled as `none`): `None` and the empty string parse to
`None`, and every result is `None` or a real calendar date. -/
theorem parse_pl_date_total (yearNow : Nat) :
    parse_pl_date yearNow Cell.none = none ∧
      parse_pl_date yearNow (Cell.str "") = none ∧
      ∀ c : Cell, OkDate (parse_pl_date yearNow c) := by
  refine ⟨rfl, rfl, fun c => okDate_parse_pl_date yearNow c⟩

/-- Claim C6: pagination terminates on repetition: if every page after page 1
returns the same (non-empty) candidate set as page 1, the loop stops after
fetching page 2 - every candidate key is already accumulated and the page is
not the first - instead of walking to the depth cap. -/
theorem pagination_stops_after_page_two (kw : String)
    (pages : Nat → Option (List Anchor)) (maxPages : Nat) (a : List Anchor)
    (hmax : 2 ≤ maxPages) (h1 : pages 1 = some a)
    (hrep : ∀ p, 2 ≤ p → pages p = pages 1)
    (hne : parse_list_page a ≠ []) :
    iterate_pages_for_keyword kw pages maxPages =
      ((parse_list_page a).filter (titleMatches kw), 2) := by
  obtain ⟨k, rfl⟩ : ∃ k, maxPages = k + 2 := ⟨maxPages - 2, by omega⟩
  have h2 : pages 2 = some a := by rw [hrep 2 (Nat.le_refl 2), h1]
  have hbe : (parse_list_page a).isEmpty = false := by
    cases hpl : parse_list_page a with
    | nil => exact absurd hpl hne
    | cons x xs => rfl
  have hd1 : decide (1 < 1) = false := rfl
  have hd2 : decide (1 < 2) = true := rfl
  have hall : ((parse_list_page a).filter (titleMatches kw)).all
      (fun b => decide (identKey b ∈
        ((parse_list_page a).filter (titleMatches kw)).map identKey)) = true := by
    rw [List.all_eq_true]
    intro x hx
    simp only [decide_eq_true_eq]
    exact List.mem_map_of_mem identKey hx
  unfold iterate_pages_for_keyword
  simp only [iterGo, h1, h2, hbe, Nat.reduceAdd, hd1, hd2, Bool.and_false,
    Bool.and_true, Bool.false_eq_true, if_false, List.nil_append, hall, if_true]

/-- Claim C7: enrichment degrades gracefully.  A stub whose detail fetch
fails is still present in the Delta with its stub fields (`job_id`, `title`,
`url`) intact and the enrichment fields (`employer_name`, `industry`,
`published_iso`) unset; the enrichment translation is a total function, so
no exception crosses the boundary. -/
theorem enrichment_graceful_degradation (yearNow : Nat)
    (fetchDetail : Row → Option DetailPage) (fs : String)
    (stubs : List Row) (master : List Row) (s : Row)
    (hmem : s ∈ stubs)
    (hfail : fetchDetail (withMeta fs s) = none)
    (htitle : s.title.isSome = true) (hurl : s.url.isSome = true)
    (hemp : s.employer_name = none) (hind : s.industry = none)
    (hpub : s.published_iso = none)
    (hpairs : stubs.Pairwise (fun a b => pairKey a ≠ pairKey b))
    (hnew : mkey (withMeta fs s) ∉ master.map mkey) :
    withMeta fs s ∈ new_only master (dfNew yearNow fetchDetail fs stubs) ∧
      (withMeta fs s).employer_name = none ∧ (withMeta fs s).industry = none ∧
      (withMeta fs s).published_iso = none ∧
      (withMeta fs s).title = s.title ∧ (withMeta fs s).url = s.url ∧
      (withMeta fs s).job_id = s.job_id := by
  have hproc :
      enrich_offer_details yearNow (fetchDetail (withMeta fs s)) (withMeta fs s) =
        withMeta fs s := by
    rw [hfail]
    rfl
  have hmemP : withMeta fs s ∈ processOffers yearNow fetchDetail fs stubs := by
    unfold processOffers
    have h := List.mem_map_of_mem
      (fun o => enrich_offer_details yearNow (fetchDetail (withMeta fs o)) (withMeta fs o))
      hmem
    simpa only [hproc] using h
  have hpairsP : (processOffers yearNow fetchDetail fs stubs).Pairwise
      (fun a b => pairKey a ≠ pairKey b) := by
    unfold processOffers
    rw [List.pairwise_map]
    refine hpairs.imp ?_
    intro a b hab
    rw [pairKey_enrich, pairKey_withMeta, pairKey_enrich, pairKey_withMeta]
    exact hab
  have hdrop : dropDupPairs (processOffers yearNow fetchDetail fs stubs) [] =
      processOffers yearNow fetchDetail fs stubs := by
    unfold dropDupPairs
    exact dropDupBy_of_pairwise pairKey _ [] hpairsP (by simp)
  have hmemDf : withMeta fs s ∈ dfNew yearNow fetchDetail fs stubs := by
    unfold dfNew
    rw [hdrop]
    apply List.mem_filter.mpr
    refine ⟨hmemP, ?_⟩
    have ht : (withMeta fs s).title = s.title := rfl
    have hu : (withMeta fs s).url = s.url := rfl
    rw [ht, hu, htitle, hurl]
    rfl
  refine ⟨?_, hemp, hind, hpub, rfl, rfl, rfl⟩
  unfold new_only
  by_cases hm : master.isEmpty = true
  · rw [if_pos hm]
    exact hmemDf
  · rw [if_neg hm]
    apply List.mem_filter.mpr
    exact ⟨hmemDf, by simpa using hnew⟩

theorem pagination_stops_after_page_two_witness :
    (2 ≤ 80 ∧ parse_list_page ancW ≠ []) ∧
      iterate_pages_for_keyword "ksiegowa" (fun _ => some ancW) 80 =
        ((parse_list_page ancW).filter (titleMatches "ksiegowa"), 2) :=
  ⟨⟨by decide, by decide⟩,
    pagination_stops_after_page_two "ksiegowa" (fun _ => some ancW) 80 ancW
      (by decide) rfl (fun p _ => rfl) (by decide)⟩

theorem enrichment_graceful_degradation_witness :
    (stubW ∈ [stubW] ∧ stubW.title.isSome = true ∧ stubW.url.isSome = true) ∧
      (withMeta "2025-09-12 10:00:00+0200" stubW ∈
          new_only []
            (dfNew 2025 (fun _ => none) "2025-09-12 10:00:00+0200" [stubW]) ∧
        (withMeta "2025-09-12 10:00:00+0200" stubW).employer_name = none ∧
        (withMeta "2025-09-12 10:00:00+0200" stubW).industry = none ∧
        (withMeta "2025-09-12 10:00:00+0200" stubW).published_iso = none ∧
        (withMeta "2025-09-12 10:00:00+0200" stubW).title = stubW.title ∧
        (withMeta "2025-09-12 10:00:00+0200" stubW).url = stubW.url ∧
        (withMeta "2025-09-12 10:00:00+0200" stubW).job_id = stubW.job_id) :=
  ⟨⟨by decide, by decide, by decide⟩,
    enrichment_graceful_degradation 2025 (fun _ => none)
      "2025-09-12 10:00:00+0200" [stubW] [] stubW (by decide) rfl (by decide)
      (by decide) rfl rfl rfl (by decide) (by decide)⟩
